import Mathlib

/-!
# Entry Ledger (`src/project/src/App.tsx`) — shallow embedding and verification

The repository is a single React component `App` that keeps an ordered list
of `TimeEntry` records in component state, persists it to `localStorage`
under the key `"timeEntries"`, and derives two aggregate totals.

Modelling conventions:

* JavaScript numbers are modelled by `JsVal`: either an exact rational
  (`JsVal.num q`), the floating-point `NaN` (`JsVal.nan`), or the JSON
  value `null` (`JsVal.null`), which can flow into a number-typed field
  after `JSON.parse` of a blob in which `JSON.stringify` serialized `NaN`
  as `null`.  Rounding of finite doubles is abstracted away (numbers are
  exact); `NaN` propagation and `null` coercion follow JavaScript `+`/`*`.
* `Date.now()` and `new Date().toISOString().split('T')[0]` are inputs of
  the event handler (`now : ℕ`, `today : String`): the environment supplies
  the clock reading at each call.
* `parseFloat` results are inputs of the handler (`JsVal.num _` on success,
  `JsVal.nan` on parse failure); the string-level parse itself is not
  modelled.
* `localStorage` contents are modelled at parse granularity by `StoredBlob`:
  `absent` (getItem returned `null`/a falsy value), `malformed` (a non-empty
  string rejected by `JSON.parse`), or `parsed v` (a string `JSON.parse`
  accepts, yielding the JSON value `v`).
-/

/-- A JavaScript runtime value in a number-typed position: an exact
rational, `NaN`, or `null` (possible after reloading a blob in which
`JSON.stringify` turned `NaN` into `null`). -/
inductive JsVal where
  | num (q : ℚ)
  | nan
  | null
deriving DecidableEq, Repr

/-- JavaScript `ToNumber` for the non-`NaN` values of `JsVal`:
a number converts to itself and `null` coerces to `0`.  (Only used
under a guard excluding `nan`.) -/
def JsVal.toNumber : JsVal → ℚ
  | JsVal.num q => q
  | _ => 0

/-- JavaScript `+` on `JsVal`: `NaN` is absorbing, otherwise both
operands coerce to numbers and the rationals are added. -/
def JsVal.add : JsVal → JsVal → JsVal
  | JsVal.nan, _ => JsVal.nan
  | _, JsVal.nan => JsVal.nan
  | a, b => JsVal.num (a.toNumber + b.toNumber)

/-- JavaScript `*` on `JsVal`: `NaN` is absorbing, otherwise both
operands coerce to numbers and the rationals are multiplied. -/
def JsVal.mul : JsVal → JsVal → JsVal
  | JsVal.nan, _ => JsVal.nan
  | _, JsVal.nan => JsVal.nan
  | a, b => JsVal.num (a.toNumber * b.toNumber)

/-- The `TimeEntry` interface of `App.tsx` (lines 8–15). -/
structure TimeEntry where
  id : String
  date : String
  companyName : String
  hours : JsVal
  hourlyWage : JsVal
  totalIncome : JsVal
deriving DecidableEq, Repr

namespace App

/-- The `handleSubmit` handler (App.tsx lines 31–46), restricted to its effect on
`entries`: computes `totalIncome = hours * hourlyWage`, builds the new
entry with `id = Date.now().toString()` and `date = today`, and appends
it at the end via `setEntries([...entries, newEntry])`.  `h` and `w` are
the two `parseFloat` results. -/
def handleSubmit (entries : List TimeEntry) (now : ℕ) (today companyName : String)
    (h w : JsVal) : List TimeEntry :=
  let totalIncome := JsVal.mul h w
  let newEntry : TimeEntry :=
    { id := Nat.repr now
      date := today
      companyName := companyName
      hours := h
      hourlyWage := w
      totalIncome := totalIncome }
  entries ++ [newEntry]

/-- The `deleteEntry` handler (App.tsx lines 48–50):
`entries.filter(entry => entry.id !== id)`. -/
def deleteEntry (entries : List TimeEntry) (id : String) : List TimeEntry :=
  entries.filter (fun entry => entry.id != id)

/-- Line `const totalIncome = entries.reduce((acc, entry) => acc + entry.totalIncome, 0)`
(App.tsx line 52). -/
def totalIncome (entries : List TimeEntry) : JsVal :=
  entries.foldl (fun acc entry => JsVal.add acc entry.totalIncome) (JsVal.num 0)

/-- Line `const totalHours = entries.reduce((acc, entry) => acc + entry.hours, 0)`
(App.tsx line 53). -/
def totalHours (entries : List TimeEntry) : JsVal :=
  entries.foldl (fun acc entry => JsVal.add acc entry.hours) (JsVal.num 0)

end App

/-- One form submission during a session: the clock readings
(`now` = `Date.now()`, `today` = the ISO day) and the form data (`h`, `w`
are the `parseFloat` results for hours and hourly wage). -/
structure SubmitCall where
  now : ℕ
  today : String
  companyName : String
  h : JsVal
  w : JsVal
deriving DecidableEq, Repr

/-- The entry `handleSubmit` creates for a given call. -/
def SubmitCall.entry (c : SubmitCall) : TimeEntry :=
  { id := Nat.repr c.now
    date := c.today
    companyName := c.companyName
    hours := c.h
    hourlyWage := c.w
    totalIncome := JsVal.mul c.h c.w }

/-- Run a sequence of form submissions starting from the empty ledger. -/
def runSession (calls : List SubmitCall) : List TimeEntry :=
  calls.foldl
    (fun entries c => App.handleSubmit entries c.now c.today c.companyName c.h c.w) []

/-- A submission whose numeric inputs parsed successfully (`parseFloat`
returned genuine numbers, modelled as exact rationals). -/
structure QCall where
  now : ℕ
  today : String
  companyName : String
  hours : ℚ
  hourlyWage : ℚ
deriving DecidableEq, Repr

/-- View a successfully-parsed submission as a `SubmitCall`. -/
def QCall.toSubmit (c : QCall) : SubmitCall :=
  { now := c.now, today := c.today, companyName := c.companyName
    h := JsVal.num c.hours, w := JsVal.num c.hourlyWage }



/-! ## Injectivity of `Date.now().toString()` on distinct clock readings

`handleSubmit` assigns `id := Date.now().toString()`, modelled as
`Nat.repr now`.  Distinct ids for distinct clock readings amounts to
injectivity of the decimal printer, proved here from scratch (core only
provides length lemmas about `Nat.toDigitsCore`). -/

/-- The decimal digit string of `n`, most significant digit first, by
structural recursion on the value (`Nat.toDigitsCore` recurses on fuel). -/
def reprDigits (n : ℕ) : List Char :=
  if _h : n < 10 then [Nat.digitChar n]
  else reprDigits (n / 10) ++ [Nat.digitChar (n % 10)]
termination_by n
decreasing_by exact Nat.div_lt_self (by omega) (by omega)



/-! ## Persistence (`localStorage` under the fixed key `"timeEntries"`) -/

/-- A JSON value, the result of `JSON.parse` on a well-formed string
(numbers abstracted as exact rationals). -/
inductive JVal where
  | null
  | num (q : ℚ)
  | str (s : String)
  | arr (elems : List JVal)
  | obj (fields : List (String × JVal))

/-- Effect of `JSON.stringify` on a number-typed field: a genuine number serializes
as itself; `NaN` (not representable in JSON) serializes as `null`; a
`null` field serializes as `null`. -/
def encodeNumField : JsVal → JVal
  | JsVal.num q => JVal.num q
  | JsVal.nan => JVal.null
  | JsVal.null => JVal.null

/-- Effect of `JSON.stringify` on one `TimeEntry`, at the JSON-value level. -/
def encodeEntry (e : TimeEntry) : JVal :=
  JVal.obj
    [ ("id", JVal.str e.id)
    , ("date", JVal.str e.date)
    , ("companyName", JVal.str e.companyName)
    , ("hours", encodeNumField e.hours)
    , ("hourlyWage", encodeNumField e.hourlyWage)
    , ("totalIncome", encodeNumField e.totalIncome) ]

/-- The value `JSON.stringify(entries)` serializes: the array of entry objects
(App.tsx line 28). -/
def encodeEntries (entries : List TimeEntry) : JVal :=
  JVal.arr (entries.map encodeEntry)

/-- Reading a number-typed field back out of the parsed JSON value
(the component uses the parsed object directly as a `TimeEntry`). -/
def decodeNumField : JVal → Option JsVal
  | JVal.num q => some (JsVal.num q)
  | JVal.null => some JsVal.null
  | _ => none

/-- The typed view of one parsed entry object: succeeds exactly when the
object has the six `TimeEntry` fields with string-typed strings and
number-or-null numeric fields, which is the shape `JSON.parse` yields on
anything `encodeEntry` produced. -/
def decodeEntry : JVal → Option TimeEntry
  | JVal.obj
      [ ("id", JVal.str i)
      , ("date", JVal.str d)
      , ("companyName", JVal.str c)
      , ("hours", h)
      , ("hourlyWage", w)
      , ("totalIncome", t) ] =>
    match decodeNumField h, decodeNumField w, decodeNumField t with
    | some hv, some wv, some tv =>
      some { id := i, date := d, companyName := c
             hours := hv, hourlyWage := wv, totalIncome := tv }
    | _, _, _ => none
  | _ => none

/-- The typed view of the whole parsed array. -/
def decodeEntries : JVal → Option (List TimeEntry)
  | JVal.arr vs => vs.mapM decodeEntry
  | _ => none

/-- The string stored under `"timeEntries"`, at parse granularity:
`absent` — `getItem` returned `null` (or another falsy value), `malformed`
— a non-empty string that `JSON.parse` rejects, `parsed v` — a string
that `JSON.parse` accepts, producing the JSON value `v`. -/
inductive StoredBlob where
  | absent
  | malformed
  | parsed (v : JVal)

/-- The exception `JSON.parse` throws on a malformed string. -/
inductive JsError where
  | syntaxError
deriving DecidableEq, Repr

/-- The `useState` initializer (App.tsx lines 18–21):
`const saved = localStorage.getItem('timeEntries');
return saved ? JSON.parse(saved) : [];`
A falsy `saved` yields the literal `[]`; otherwise `JSON.parse` runs and
either returns the parsed value or throws a `SyntaxError`, which
propagates out of the initializer. -/
def loadSaved : StoredBlob → Except JsError JVal
  | StoredBlob.absent => Except.ok (JVal.arr [])
  | StoredBlob.malformed => Except.error JsError.syntaxError
  | StoredBlob.parsed v => Except.ok v

/-- The `useEffect` persistence step (App.tsx lines 27–29):
`localStorage.setItem('timeEntries', JSON.stringify(entries))`.
`JSON.stringify` of a well-formed array always produces a string that
`JSON.parse` maps back to the same JSON value, so the written blob is
`parsed (encodeEntries entries)`. -/
def persist (entries : List TimeEntry) : StoredBlob :=
  StoredBlob.parsed (encodeEntries entries)

/-! ## The component as a state machine -/

/-- Component state relevant to the ledger: the `entries` state variable
and the blob currently in `localStorage`. -/
structure AppState where
  entries : List TimeEntry
  storage : StoredBlob

/-- User-interface events handled by the component.  `renderList` and
`renderAggregate` are the read-only accesses: rendering the entry list
and the two totals.  The render path calls neither `setEntries` nor
`localStorage.setItem` (the effect on line 27 fires only when `entries`
changes), so reads leave the state untouched. -/
inductive UIEvent where
  | submit (c : SubmitCall)
  | delete (id : String)
  | renderList
  | renderAggregate

/-- One step of the component: form submission and delete-click run their
handler and re-persist the new `entries`; renders change nothing. -/
def step (s : AppState) : UIEvent → AppState
  | UIEvent.submit c =>
    let es := App.handleSubmit s.entries c.now c.today c.companyName c.h c.w
    { entries := es, storage := persist es }
  | UIEvent.delete i =>
    let es := App.deleteEntry s.entries i
    { entries := es, storage := persist es }
  | UIEvent.renderList => s
  | UIEvent.renderAggregate => s

/-- What the list view reads: `entries` in insertion order (App.tsx line 165). -/
def readList (s : AppState) : List TimeEntry :=
  s.entries

/-- What the aggregate display reads: the two derived totals
(App.tsx lines 52–53, 128, 132). -/
def readAggregate (s : AppState) : JsVal × JsVal :=
  (App.totalHours s.entries, App.totalIncome s.entries)

/-! ## Sample data for concrete checks -/

/-- A concrete well-formed entry (the §8 "Acme" scenario entry). -/
def eA : TimeEntry :=
  { id := "1", date := "2024-01-01", companyName := "Acme"
    hours := JsVal.num 4, hourlyWage := JsVal.num 1000
    totalIncome := JsVal.num 4000 }

/-- A second concrete well-formed entry. -/
def eB : TimeEntry :=
  { id := "2", date := "2024-01-02", companyName := "Beta"
    hours := JsVal.num 2, hourlyWage := JsVal.num 1500
    totalIncome := JsVal.num 3000 }

/-- An entry tainted by a failed `parseFloat` (`NaN` hours, hence `NaN`
income). -/
def eNaN : TimeEntry :=
  { id := "3", date := "2024-01-03", companyName := "Gamma"
    hours := JsVal.nan, hourlyWage := JsVal.num 1000
    totalIncome := JsVal.nan }

/-- What `eNaN` becomes after a persist → reload cycle: `JSON.stringify`
writes `null` for `NaN`, and `JSON.parse` reads it back as `null`. -/
def eNull : TimeEntry :=
  { id := "3", date := "2024-01-03", companyName := "Gamma"
    hours := JsVal.null, hourlyWage := JsVal.num 1000
    totalIncome := JsVal.null }

/-- A concrete submission at clock reading 1. -/
def callA : SubmitCall :=
  { now := 1, today := "2024-01-01", companyName := "Acme"
    h := JsVal.num 4, w := JsVal.num 1000 }

/-- A concrete submission at clock reading 2. -/
def callB : SubmitCall :=
  { now := 2, today := "2024-01-01", companyName := "Beta"
    h := JsVal.num 2, w := JsVal.num 1500 }

/-- A submission landing in the same millisecond as `callA`
(`Date.now()` returns the same value again). -/
def callRepeat : SubmitCall :=
  { now := 1, today := "2024-01-01", companyName := "Beta"
    h := JsVal.num 2, w := JsVal.num 1500 }

/-! ## General lemmas -/

section Lemmas

theorem handleSubmit_eq (entries : List TimeEntry) (c : SubmitCall) :
    App.handleSubmit entries c.now c.today c.companyName c.h c.w
      = entries ++ [c.entry] := rfl

theorem foldl_append_entry (cs : List SubmitCall) (l : List TimeEntry) :
    cs.foldl (fun entries c => entries ++ [c.entry]) l
      = l ++ cs.map SubmitCall.entry := by
  induction cs generalizing l with
  | nil => simp
  | cons c cs ih => simp [ih]

theorem runSession_eq_map (calls : List SubmitCall) :
    runSession calls = calls.map SubmitCall.entry := by
  have hf : (fun (entries : List TimeEntry) (c : SubmitCall) =>
      App.handleSubmit entries c.now c.today c.companyName c.h c.w)
      = fun entries c => entries ++ [c.entry] := rfl
  show calls.foldl _ [] = _
  rw [hf, foldl_append_entry]
  simp

@[simp] theorem JsVal.add_num_num (a b : ℚ) :
    JsVal.add (JsVal.num a) (JsVal.num b) = JsVal.num (a + b) := rfl

@[simp] theorem JsVal.mul_num_num (a b : ℚ) :
    JsVal.mul (JsVal.num a) (JsVal.num b) = JsVal.num (a * b) := rfl

@[simp] theorem JsVal.add_nan_right (a : JsVal) :
    JsVal.add a JsVal.nan = JsVal.nan := by
  cases a <;> rfl

theorem foldl_add_num {α : Type} (f : α → ℚ) (xs : List α) (a : ℚ) :
    xs.foldl (fun acc x => JsVal.add acc (JsVal.num (f x))) (JsVal.num a)
      = JsVal.num (a + (xs.map f).sum) := by
  induction xs generalizing a with
  | nil => simp
  | cons x xs ih => simp [ih, add_assoc]

end Lemmas

theorem reprDigits_of_lt {n : ℕ} (h : n < 10) :
    reprDigits n = [Nat.digitChar n] := by
  rw [reprDigits]
  simp [h]

theorem reprDigits_of_ge {n : ℕ} (h : ¬ n < 10) :
    reprDigits n = reprDigits (n / 10) ++ [Nat.digitChar (n % 10)] := by
  rw [reprDigits]
  simp [h]

theorem reprDigits_ne_nil (n : ℕ) : reprDigits n ≠ [] := by
  by_cases h : n < 10
  · rw [reprDigits_of_lt h]
    simp
  · rw [reprDigits_of_ge h]
    simp

theorem toDigitsCore_eq_reprDigits :
    ∀ (f n : ℕ) (ds : List Char), n < f →
      Nat.toDigitsCore 10 f n ds = reprDigits n ++ ds := by
  intro f
  induction f with
  | zero => intro n ds h; omega
  | succ f ih =>
    intro n ds h
    simp only [Nat.toDigitsCore]
    by_cases h10 : n / 10 = 0
    · have hn : n < 10 := by omega
      rw [if_pos h10, reprDigits_of_lt hn, Nat.mod_eq_of_lt hn]
      rfl
    · have hge : ¬ n < 10 := by omega
      have hlt : n / 10 < f := by
        have := Nat.div_lt_self (by omega : 0 < n) (by omega : 1 < 10)
        omega
      rw [if_neg h10, ih (n / 10) _ hlt, reprDigits_of_ge hge]
      simp

theorem digitChar_inj_lt :
    ∀ a < 10, ∀ b < 10, Nat.digitChar a = Nat.digitChar b → a = b := by
  decide

theorem reprDigits_inj (a : ℕ) :
    ∀ b : ℕ, reprDigits a = reprDigits b → a = b := by
  induction a using Nat.strong_induction_on with
  | _ a ih =>
    intro b hab
    by_cases ha : a < 10 <;> by_cases hb : b < 10
    · rw [reprDigits_of_lt ha, reprDigits_of_lt hb] at hab
      exact digitChar_inj_lt a ha b hb (List.singleton_injective hab)
    · exfalso
      rw [reprDigits_of_lt ha, reprDigits_of_ge hb] at hab
      have hlen := congrArg List.length hab
      simp only [List.length_append, List.length_singleton] at hlen
      have hz : (reprDigits (b / 10)).length = 0 := by omega
      exact reprDigits_ne_nil _ (List.length_eq_zero.mp hz)
    · exfalso
      rw [reprDigits_of_ge ha, reprDigits_of_lt hb] at hab
      have hlen := congrArg List.length hab
      simp only [List.length_append, List.length_singleton] at hlen
      have hz : (reprDigits (a / 10)).length = 0 := by omega
      exact reprDigits_ne_nil _ (List.length_eq_zero.mp hz)
    · rw [reprDigits_of_ge ha, reprDigits_of_ge hb] at hab
      obtain ⟨hdiv, hmod⟩ := List.append_inj' hab (by simp)
      have h1 : a / 10 = b / 10 :=
        ih (a / 10) (Nat.div_lt_self (by omega) (by omega)) (b / 10) hdiv
      have h2 : a % 10 = b % 10 :=
        digitChar_inj_lt _ (Nat.mod_lt _ (by omega)) _ (Nat.mod_lt _ (by omega))
          (List.singleton_injective hmod)
      omega

theorem Nat_repr_eq_reprDigits (n : ℕ) :
    Nat.repr n = (reprDigits n).asString := by
  show (Nat.toDigits 10 n).asString = _
  rw [Nat.toDigits, toDigitsCore_eq_reprDigits (n + 1) n [] (by omega)]
  simp

theorem Nat_repr_injective : Function.Injective Nat.repr := by
  intro a b hab
  rw [Nat_repr_eq_reprDigits, Nat_repr_eq_reprDigits] at hab
  exact reprDigits_inj a b (congrArg String.data hab)

theorem filter_ne_eq_eraseP :
    ∀ (l : List TimeEntry) (i : String), (l.map TimeEntry.id).Nodup →
      l.filter (fun e => e.id != i) = l.eraseP (fun e => e.id == i) := by
  intro l i
  induction l with
  | nil => intro _; rfl
  | cons e l ih =>
    intro hnd
    rw [List.map_cons, List.nodup_cons] at hnd
    obtain ⟨hni, hnd2⟩ := hnd
    by_cases he : e.id = i
    · have hbeq : (e.id == i) = true := beq_iff_eq.mpr he
      have hbne : (e.id != i) = false := by simp [bne, hbeq]
      rw [List.filter_cons, List.eraseP_cons, hbeq, hbne]
      simp only [Bool.false_eq_true, if_false, cond_true]
      apply List.filter_eq_self.mpr
      intro x hx
      apply bne_iff_ne.mpr
      intro hxi
      have hx2 : x.id ∈ List.map TimeEntry.id l := List.mem_map_of_mem _ hx
      rw [hxi, ← he] at hx2
      exact hni hx2
    · have hbeq : (e.id == i) = false := by simp [he]
      have hbne : (e.id != i) = true := bne_iff_ne.mpr he
      rw [List.filter_cons, List.eraseP_cons, hbeq, hbne]
      simp only [if_true, cond_false]
      rw [ih hnd2]

theorem totalHours_runSession_q (calls : List QCall) :
    App.totalHours (runSession (calls.map QCall.toSubmit))
      = JsVal.num ((calls.map QCall.hours).sum) := by
  rw [runSession_eq_map, List.map_map]
  unfold App.totalHours
  rw [List.foldl_map]
  have h := foldl_add_num (fun c : QCall => c.hours) calls 0
  rw [zero_add] at h
  exact h

theorem totalIncome_runSession_q (calls : List QCall) :
    App.totalIncome (runSession (calls.map QCall.toSubmit))
      = JsVal.num ((calls.map (fun c => c.hours * c.hourlyWage)).sum) := by
  rw [runSession_eq_map, List.map_map]
  unfold App.totalIncome
  rw [List.foldl_map]
  have h := foldl_add_num (fun c : QCall => c.hours * c.hourlyWage) calls 0
  rw [zero_add] at h
  exact h

theorem decodeEntry_encodeEntry (e : TimeEntry)
    (h1 : e.hours ≠ JsVal.nan) (h2 : e.hourlyWage ≠ JsVal.nan)
    (h3 : e.totalIncome ≠ JsVal.nan) :
    decodeEntry (encodeEntry e) = some e := by
  obtain ⟨i, d, c, hh, hw, ht⟩ := e
  cases hh <;> cases hw <;> cases ht <;>
    first
      | rfl
      | exact absurd rfl h1
      | exact absurd rfl h2
      | exact absurd rfl h3

theorem decodeEntries_encodeEntries (l : List TimeEntry)
    (hn : ∀ e ∈ l, e.hours ≠ JsVal.nan ∧ e.hourlyWage ≠ JsVal.nan
          ∧ e.totalIncome ≠ JsVal.nan) :
    decodeEntries (encodeEntries l) = some l := by
  induction l with
  | nil => rfl
  | cons e l ih =>
    obtain ⟨h1, h2, h3⟩ := hn e (List.mem_cons_self e l)
    have hrec : decodeEntries (encodeEntries l) = some l :=
      ih fun x hx => hn x (List.mem_cons_of_mem e hx)
    have hrec2 : (l.map encodeEntry).mapM decodeEntry = some l := hrec
    show ((e :: l).map encodeEntry).mapM decodeEntry = some (e :: l)
    rw [List.map_cons, List.mapM_cons, decodeEntry_encodeEntry e h1 h2 h3,
      hrec2]
    rfl

/-! ## The claims -/

/-- Claim C1: for every sequence of `append` calls starting from the empty
ledger, `aggregate().totalHours` equals the arithmetic sum of the `hours`
argument of each call and `aggregate().totalIncome` equals the sum of
`hours * hourlyWage` per call; on an empty ledger both fields are `0`. -/
theorem C1_aggregate_sums (calls : List QCall) :
    App.totalHours (runSession (calls.map QCall.toSubmit))
        = JsVal.num ((calls.map QCall.hours).sum)
      ∧ App.totalIncome (runSession (calls.map QCall.toSubmit))
        = JsVal.num ((calls.map (fun c => c.hours * c.hourlyWage)).sum)
      ∧ App.totalHours [] = JsVal.num 0
      ∧ App.totalIncome [] = JsVal.num 0 :=
  ⟨totalHours_runSession_q calls, totalIncome_runSession_q calls, rfl, rfl⟩

/-- Claim C2: on a ledger satisfying the documented distinct-id invariant,
`remove(id)` removes exactly the first (and only) entry whose id matches —
it coincides with first-match erasure — and if no entry matches, the
sequence is unchanged (silent no-op, not an error). -/
theorem C2_remove_matching (entries : List TimeEntry) (i : String)
    (hnd : (entries.map TimeEntry.id).Nodup) :
    App.deleteEntry entries i = entries.eraseP (fun e => e.id == i)
      ∧ ((∀ e ∈ entries, e.id ≠ i) → App.deleteEntry entries i = entries) := by
  refine ⟨filter_ne_eq_eraseP entries i hnd, fun hno => ?_⟩
  exact List.filter_eq_self.mpr fun e he => bne_iff_ne.mpr (hno e he)

theorem C2_witness :
    App.deleteEntry [eA, eB] "1" = List.eraseP (fun e => e.id == "1") [eA, eB] :=
  (C2_remove_matching [eA, eB] "1" (by decide)).1

/-- Claim C3: after `remove(id)`, `list()` contains no entry whose id
equals that id; and if no entry with that id was present, `list()` is
unchanged in length and contents. -/
theorem C3_remove_then_absent (entries : List TimeEntry) (i : String) :
    (∀ e ∈ App.deleteEntry entries i, e.id ≠ i)
      ∧ ((∀ e ∈ entries, e.id ≠ i) → App.deleteEntry entries i = entries) := by
  constructor
  · intro e he
    exact bne_iff_ne.mp (List.mem_filter.mp he).2
  · intro hno
    exact List.filter_eq_self.mpr fun e he => bne_iff_ne.mpr (hno e he)

theorem C3_witness : App.deleteEntry [eA, eB] "9" = [eA, eB] :=
  (C3_remove_then_absent [eA, eB] "9").2 (by decide)

/-- Claim C4 (amended): the constructor-time load returns the empty array
when the blob is absent and the parsed value when the blob parses, but a
present-and-unparseable blob makes `JSON.parse` throw inside the `useState`
initializer: that failure is not recovered to an empty ledger. -/
theorem C4_construction (v : JVal) :
    loadSaved StoredBlob.absent = Except.ok (JVal.arr [])
      ∧ decodeEntries (JVal.arr []) = some []
      ∧ loadSaved (StoredBlob.parsed v) = Except.ok v
      ∧ loadSaved StoredBlob.malformed = Except.error JsError.syntaxError :=
  ⟨rfl, rfl, rfl, rfl⟩

/-- Claim C4 is false as stated: on an unparseable blob, construction does
not silently recover to the empty ledger — the `SyntaxError` of
`JSON.parse` propagates (there is no catch in the initializer). -/
theorem C4_counterexample :
    loadSaved StoredBlob.malformed = Except.error JsError.syntaxError
      ∧ loadSaved StoredBlob.malformed ≠ Except.ok (JVal.arr []) :=
  ⟨rfl, fun h => Except.noConfusion h⟩

/-- Claim C5 (amended): provided the `Date.now()` readings of the appends
in a session are pairwise distinct, every id produced is distinct from all
earlier ones, so all id values in the ledger are distinct. -/
theorem C5_ids_distinct (calls : List SubmitCall)
    (hclock : (calls.map SubmitCall.now).Nodup) :
    ((runSession calls).map TimeEntry.id).Nodup := by
  rw [runSession_eq_map, List.map_map]
  have hmap : (TimeEntry.id ∘ SubmitCall.entry)
      = Nat.repr ∘ SubmitCall.now := rfl
  rw [hmap, ← List.map_map]
  exact hclock.map Nat_repr_injective

theorem C5_witness : ((runSession [callA, callB]).map TimeEntry.id).Nodup :=
  C5_ids_distinct [callA, callB] (by decide)

/-- Claim C5 is false as stated: two appends inside the same millisecond
(`Date.now()` returns `1` both times) produce the id `"1"` twice, so the
ledger ids are not distinct. -/
theorem C5_counterexample :
    ¬ ((runSession [callA, callRepeat]).map TimeEntry.id).Nodup := by
  decide

/-- Claim C6: `append` raises no error and rejects nothing — every call
grows the ledger by exactly one entry for arbitrary inputs — and when
`parseFloat` fails on the hours and wage strings, the resulting `NaN` is
stored in the new entry's `hours`, `hourlyWage` and `totalIncome` fields
and propagates into both aggregates. -/
theorem C6_nan_propagates (entries : List TimeEntry) (now : ℕ)
    (today name : String) :
    (∀ h w : JsVal,
        (App.handleSubmit entries now today name h w).length
          = entries.length + 1)
      ∧ App.handleSubmit entries now today name JsVal.nan JsVal.nan
          = entries ++
            [{ id := Nat.repr now, date := today, companyName := name
               hours := JsVal.nan, hourlyWage := JsVal.nan
               totalIncome := JsVal.nan }]
      ∧ App.totalHours
            (App.handleSubmit entries now today name JsVal.nan JsVal.nan)
          = JsVal.nan
      ∧ App.totalIncome
            (App.handleSubmit entries now today name JsVal.nan JsVal.nan)
          = JsVal.nan := by
  refine ⟨fun h w => by simp [App.handleSubmit], rfl, ?_, ?_⟩
  · unfold App.totalHours App.handleSubmit
    rw [List.foldl_append]
    simp [JsVal.add_nan_right]
  · unfold App.totalIncome App.handleSubmit
    rw [List.foldl_append]
    simp [JsVal.add_nan_right, JsVal.mul]

/-- Claim C7 (amended): persisting any ledger whose entries carry no `NaN`
field and reloading the blob yields the same entries in the same order
(all six fields equal); a `NaN` field, however, is serialized as `null`
and does not survive the round trip. -/
theorem C7_roundtrip (l : List TimeEntry)
    (hn : ∀ e ∈ l, e.hours ≠ JsVal.nan ∧ e.hourlyWage ≠ JsVal.nan
          ∧ e.totalIncome ≠ JsVal.nan) :
    loadSaved (persist l) = Except.ok (encodeEntries l)
      ∧ decodeEntries (encodeEntries l) = some l :=
  ⟨rfl, decodeEntries_encodeEntries l hn⟩

theorem C7_witness :
    loadSaved (persist [eA, eB]) = Except.ok (encodeEntries [eA, eB])
      ∧ decodeEntries (encodeEntries [eA, eB]) = some [eA, eB] :=
  C7_roundtrip [eA, eB] (by decide)

/-- Claim C7 is false as stated: an entry with `NaN` hours reloads with
`null` hours (JSON cannot represent `NaN`), so the persist → reload round
trip does not preserve every ledger state. -/
theorem C7_counterexample :
    decodeEntries (encodeEntries [eNaN]) = some [eNull]
      ∧ decodeEntries (encodeEntries [eNaN]) ≠ some [eNaN] :=
  ⟨rfl, by decide⟩

/-- Claim C8: `append` places the new entry at the end of the sequence
with `totalIncome = hours * hourlyWage` computed once at creation; in
particular `append("Acme", 4, 1000)` on the empty ledger yields an entry
with `totalIncome = 4000` and aggregates `totalHours = 4`,
`totalIncome = 4000`. -/
theorem C8_append_scenario :
    (∀ (entries : List TimeEntry) (now : ℕ) (today name : String)
        (h w : JsVal),
        App.handleSubmit entries now today name h w
          = entries ++
            [{ id := Nat.repr now, date := today, companyName := name
               hours := h, hourlyWage := w
               totalIncome := JsVal.mul h w }])
      ∧ App.handleSubmit [] 1 "2024-01-01" "Acme" (JsVal.num 4)
          (JsVal.num 1000) = [eA]
      ∧ App.totalHours [eA] = JsVal.num 4
      ∧ App.totalIncome [eA] = JsVal.num 4000 := by
  refine ⟨fun entries now today name h w => rfl, ?_, ?_, ?_⟩
  · show [(⟨Nat.repr 1, "2024-01-01", "Acme", JsVal.num 4, JsVal.num 1000,
        JsVal.mul (JsVal.num 4) (JsVal.num 1000)⟩ : TimeEntry)] = [eA]
    have hid : Nat.repr 1 = "1" := by decide
    rw [JsVal.mul_num_num, hid]
    norm_num [eA]
  · show JsVal.add (JsVal.num 0) eA.hours = JsVal.num 4
    norm_num [eA]
  · show JsVal.add (JsVal.num 0) eA.totalIncome = JsVal.num 4000
    norm_num [eA]

/-- Claim C9: `list()` and `aggregate()` are pure reads: rendering either
leaves the component state and the persisted blob unchanged, repeated
reads with no intervening mutation return identical results, and
`aggregate()` is exactly the two sums over `list()`. -/
theorem C9_reads_pure (s : AppState) :
    step s UIEvent.renderList = s
      ∧ step s UIEvent.renderAggregate = s
      ∧ readList (step s UIEvent.renderList) = readList s
      ∧ readAggregate (step s UIEvent.renderAggregate) = readAggregate s
      ∧ readAggregate s
          = (App.totalHours (readList s), App.totalIncome (readList s)) :=
  ⟨rfl, rfl, rfl, rfl, rfl⟩

/-- Claim C10: `remove(id)` leaves every entry whose id differs unchanged
and preserves the relative order of the remaining entries (the result is a
sublist of the original containing every non-matching entry), and `append`
leaves the pre-existing entries unchanged as a prefix of the result. -/
theorem C10_frame (entries : List TimeEntry) (i : String) (now : ℕ)
    (today name : String) (h w : JsVal) :
    (App.deleteEntry entries i).Sublist entries
      ∧ (∀ e ∈ entries, e.id ≠ i → e ∈ App.deleteEntry entries i)
      ∧ (App.handleSubmit entries now today name h w).take entries.length
          = entries := by
  refine ⟨List.filter_sublist entries, fun e he hne => ?_, ?_⟩
  · exact List.mem_filter.mpr ⟨he, bne_iff_ne.mpr hne⟩
  · exact List.take_left entries _

theorem C10_witness : eB ∈ App.deleteEntry [eA, eB] "1" :=
  (C10_frame [eA, eB] "1" 1 "2024-01-01" "Acme" JsVal.nan JsVal.nan).2.1
    eB (by decide) (by decide)
